import Mathlib

/-!
Verification of the Aventuras Memory and Retrieval Engine.

The definitions below are a shallow embedding of the memory subsystem of the
repository: the `MemoryModule` pseudocode of `design.md` (Appendix A.1 and
section 3.1) and the real `BaseAIService.callLLM` helper in
`src/lib/services/ai/core/BaseAIService.ts`.  Model calls are embedded as
explicit function parameters; JavaScript promise rejection and thrown
exceptions are embedded as `Except.error`; message identifiers are embedded as
`Nat` sequence positions.
-/

namespace Aventuras

/-! ## Data model (design.md section 3.1.1) -/

/-- A committed chapter, following the `Chapter` interface of design.md
(lines 197-220).  `Date` fields become `Nat` timestamps and message ids
become `Nat` sequence positions. -/
structure Chapter where
  id : String
  number : Nat
  startMessageId : Nat
  endMessageId : Nat
  messageCount : Nat
  summary : String
  fullContent : String
  createdAt : Nat
  keywords : List String
  characters : List String
  locations : List String
  plotThreads : List String
  emotionalTone : String
deriving Repr, DecidableEq

/-- Planner mode, from the `RetrievalConfig` interface of design.md
(lines 438-452). -/
inductive RetrievalMode where
  | static
  | agentic
  | auto
deriving Repr, DecidableEq

/-- `RetrievalConfig` from design.md (lines 438-452). -/
structure RetrievalConfig where
  mode : RetrievalMode
  maxQueriesPerTurn : Nat
  maxChaptersPerQuery : Nat
  maxAgentIterations : Nat
  agenticThreshold : Nat
deriving Repr, DecidableEq

/-- Target of one query result: a single chapter (`query_chapter`) or a
chapter range (`query_chapters`), per the `MemoryTools` interface of
design.md (lines 320-362). -/
inductive QueryTarget where
  | single (chapterNumber : Nat)
  | range (startChapter endChapter : Nat)
deriving Repr, DecidableEq

/-- One answered query, echoing its target and question. -/
structure QueryResult where
  target : QueryTarget
  question : String
  answer : String
deriving Repr, DecidableEq

/-- The assembled retrieval output handed to the narrator
(`queriedChapters` plus `retrievalTimestamp`, design.md lines 1637-1640). -/
structure RetrievedContext where
  queriedChapters : List QueryResult
  retrievalTimestamp : Nat
deriving Repr, DecidableEq

/-! ## Chapter Segmenter trigger (design.md section 3.1.2, lines 223-233) -/

/-- design.md 3.1.2: chapter creation is considered exactly when
`messagesSinceLastChapter >= N + X`, with N the chapter-size threshold and X
the protected recent-message buffer. -/
def shouldAttemptChapterCreation (messagesSinceLastChapter n x : Nat) : Bool :=
  decide (n + x ≤ messagesSinceLastChapter)

/-! ## Retrieval mode selection and user-turn handling
(design.md `MemoryModule.handleUserInput`, lines 1594-1618) -/

/-- The strategy choice of `handleUserInput` (design.md lines 1607-1608):
agentic when the mode is `agentic`, or when the mode is `auto` and the
committed chapter count strictly exceeds `agenticThreshold`. -/
def useAgenticRetrieval (config : RetrievalConfig) (chapterCount : Nat) : Bool :=
  (config.mode == RetrievalMode.agentic) ||
    ((config.mode == RetrievalMode.auto) && decide (config.agenticThreshold < chapterCount))

/-- design.md `MemoryModule.handleUserInput` (lines 1594-1618).  The two
retrieval strategies are passed as functions that return their context
together with the number of model calls they issue; the returned pair is the
emitted `retrievedContext` (null embedded as `none`) together with the total
number of model calls issued by the handler. -/
def handleUserInput (config : RetrievalConfig) (chapters : List Chapter)
    (staticR agenticR : String → List Chapter → RetrievedContext × Nat)
    (input : String) : Option RetrievedContext × Nat :=
  if chapters.length = 0 then
    (none, 0)
  else
    let result :=
      if useAgenticRetrieval config chapters.length then agenticR input chapters
      else staticR input chapters
    (some result.1, result.2)

/-! ## Static retrieval (design.md `MemoryModule.staticRetrieval`,
lines 1620-1641) -/

/-- One (chapter, question) pair of the retrieval decision. -/
structure RetrievalQuery where
  chapter : Nat
  question : String
deriving Repr, DecidableEq

/-- Output of the retrieval decision step (`decideRetrieval`). -/
structure RetrievalDecision where
  queries : List RetrievalQuery
deriving Repr, DecidableEq

/-- Terminal failure of one chapter query: `query_chapter` throws when the
chapter is missing (design.md line 1563) or the query model call fails. -/
inductive QueryFailure where
  | chapterNotFound (chapterNumber : Nat)
  | queryFailed
deriving Repr, DecidableEq

/-- JavaScript `Promise.all` over already-settled outcomes: a single rejected
element rejects the combined promise; otherwise every fulfilled value is
collected in order. -/
def promiseAll {ε α : Type} : List (Except ε α) → Except ε (List α)
  | [] => Except.ok []
  | x :: xs =>
    match x with
    | Except.error e => Except.error e
    | Except.ok a => (promiseAll xs).map (fun as => a :: as)

/-- design.md `MemoryModule.staticRetrieval` (lines 1620-1641): one decision
step, then every selected chapter query issued and combined with
`Promise.all`.  The decision step and the per-chapter query execution are
passed in as functions; a query that fails terminally is an
`Except.error`. -/
def staticRetrieval (decideRetrieval : String → List Chapter → RetrievalDecision)
    (queryChapter : Nat → String → Except QueryFailure QueryResult)
    (input : String) (chapters : List Chapter) (now : Nat) :
    Except QueryFailure RetrievedContext :=
  let decision := decideRetrieval input chapters
  (promiseAll (decision.queries.map (fun q => queryChapter q.chapter q.question))).map
    (fun results => { queriedChapters := results, retrievalTimestamp := now })

/-- A concrete decision selecting three chapters, for the C4 instance. -/
def staticFailureDecision : String → List Chapter → RetrievalDecision :=
  fun _ _ => { queries := [⟨3, "q3"⟩, ⟨7, "q7"⟩, ⟨9, "q9"⟩] }

/-- A concrete query executor failing terminally on chapter 7 only. -/
def staticFailureQuery : Nat → String → Except QueryFailure QueryResult :=
  fun n question =>
    if n = 7 then Except.error QueryFailure.queryFailed
    else Except.ok { target := QueryTarget.single n, question := question, answer := "ans" }

/-! ## Agentic retrieval (design.md `MemoryModule.agenticRetrieval`,
lines 1643-1676) -/

/-- One message of the running agent conversation. -/
structure AgentMessage where
  role : String
  content : String
deriving Repr, DecidableEq

/-- One tool call emitted by the retrieval agent; the arguments are carried
as an opaque payload interpreted by the tool table. -/
structure AgentToolCall where
  name : String
  args : String
deriving Repr, DecidableEq

/-- One response of the retrieval agent: assistant content plus the tool
calls of this iteration. -/
structure AgentResponse where
  content : String
  toolCalls : List AgentToolCall
deriving Repr, DecidableEq

/-- Whether a response contains a `finish_retrieval` tool call. -/
def responseHasFinish (response : AgentResponse) : Bool :=
  response.toolCalls.any (fun c => c.name == "finish_retrieval")

/-- The inner for-loop of `agenticRetrieval` (design.md lines 1656-1667):
each tool call is dispatched through the tool table and its result appended
to the gathered context and the message log; a `finish_retrieval` call sets
the completion flag and skips the remaining calls of the response.  Returns
(complete, messages, gathered). -/
def processToolCalls (runTool : String → String → QueryResult)
    (encodeResult : QueryResult → String) (responseContent : String) :
    List AgentToolCall → List AgentMessage → List QueryResult →
    Bool × List AgentMessage × List QueryResult
  | [], messages, gathered => (false, messages, gathered)
  | call :: rest, messages, gathered =>
    if call.name = "finish_retrieval" then (true, messages, gathered)
    else
      let result := runTool call.name call.args
      processToolCalls runTool encodeResult responseContent rest
        (messages ++ [⟨"assistant", responseContent⟩, ⟨"tool", encodeResult result⟩])
        (gathered ++ [result])

/-- The while-loop of `agenticRetrieval` (design.md lines 1653-1670), with
the remaining iteration budget as fuel.  Returns the gathered query results
together with the number of completed iterations. -/
def agenticLoop (callRetrievalAgent : List AgentMessage → AgentResponse)
    (runTool : String → String → QueryResult) (encodeResult : QueryResult → String) :
    Nat → List AgentMessage → List QueryResult → Nat → List QueryResult × Nat
  | 0, _, gathered, iterations => (gathered, iterations)
  | fuel + 1, messages, gathered, iterations =>
    let response := callRetrievalAgent messages
    let step := processToolCalls runTool encodeResult response.content
      response.toolCalls messages gathered
    if step.1 then (step.2.2, iterations + 1)
    else agenticLoop callRetrievalAgent runTool encodeResult fuel
      step.2.1 step.2.2 (iterations + 1)

/-- design.md `MemoryModule.agenticRetrieval` (lines 1643-1676): the loop is
entered with the built agent prompt, an empty gathered context and zero
iterations, and always returns a plain `RetrievedContext` (never an error);
the iteration count is returned alongside. -/
def agenticRetrieval (callRetrievalAgent : List AgentMessage → AgentResponse)
    (runTool : String → String → QueryResult) (encodeResult : QueryResult → String)
    (maxAgentIterations : Nat) (agentPrompt : String) (now : Nat) :
    RetrievedContext × Nat :=
  let r := agenticLoop callRetrievalAgent runTool encodeResult
    maxAgentIterations [⟨"user", agentPrompt⟩] [] 0
  ({ queriedChapters := r.1, retrievalTimestamp := now }, r.2)

/-- Agent for the C5 instance that keeps querying and never finishes. -/
def neverFinishAgent : List AgentMessage → AgentResponse :=
  fun _ => ⟨"exploring", [⟨"query_chapter", "args1"⟩]⟩

/-- Agent for the C5 instance that finishes in its first response. -/
def immediateFinishAgent : List AgentMessage → AgentResponse :=
  fun _ => ⟨"done", [⟨"finish_retrieval", "summary"⟩]⟩

/-- A tool table echoing its inputs. -/
def constantTool : String → String → QueryResult :=
  fun name args => ⟨QueryTarget.single 1, name, args⟩

/-! ## Range queries under a budget (spec section 4.3) -/

/-- Total retained-text length of a chapter list, in characters. -/
def totalContentLength (chapters : List Chapter) : Nat :=
  (chapters.map (fun ch => ch.fullContent.length)).sum

/-- Modelled from the spec: the budget step of the Query Executor operation
`queryRange`.  The implementing range-query service (`TimelineFillService`,
created by the service factory for chapter queries) is absent from the
sources and design.md line 1575 delegates to an undeclared
`executeRangeQuery`; per the spec the concatenated retained texts are subject
to a length budget and, when they would exceed it, whole chapters are dropped
oldest first until the rest fits. -/
def dropOldestToFit (budget : Nat) : List Chapter → List Chapter
  | [] => []
  | ch :: rest =>
    if totalContentLength (ch :: rest) ≤ budget then ch :: rest
    else dropOldestToFit budget rest

/-- The answer assembled by `queryRange`: which chapter numbers were included
in the concatenation, whether truncation was noted, the question echoed and
the combined prompt text. -/
structure RangeAnswer where
  includedChapters : List Nat
  truncationNoted : Bool
  question : String
  combinedContent : String
deriving Repr, DecidableEq

/-- Modelled from the spec: `queryRange` concatenates each kept chapter text
prefixed by its chapter number (the design.md line 1571 format), keeps the
most recent chapters that fit the budget, and notes truncation in the answer
exactly when chapters were dropped. -/
def queryRange (budget : Nat) (chapters : List Chapter) (question : String) :
    RangeAnswer :=
  let kept := dropOldestToFit budget chapters
  { includedChapters := kept.map (fun ch => ch.number)
  , truncationNoted := decide (kept ≠ chapters)
  , question := question
  , combinedContent := String.intercalate "\n\n"
      (kept.map (fun ch =>
        "=== Chapter " ++ toString ch.number ++ " ===\n" ++ ch.fullContent)) }

/-- A chapter with the given number and a ten-character retained text, for
the C6 instance. -/
def sampleChapter (n : Nat) : Chapter :=
  { id := "c", number := n, startMessageId := 0, endMessageId := 0
  , messageCount := 0, summary := "", fullContent := "abcdefghij", createdAt := 0
  , keywords := [], characters := [], locations := [], plotThreads := []
  , emotionalTone := "" }

/-! ## Chapter creation on classification signals
(design.md `MemoryModule.handleClassificationComplete` and
`MemoryModule.createChapter`, lines 1680-1713) -/

/-- One transcript message; the id is its sequence position. -/
structure StoryMessage where
  id : Nat
  text : String
deriving Repr, DecidableEq

/-- The endpoint suggested by the classification signal. -/
structure EndpointSelection where
  endMessageId : Nat
deriving Repr, DecidableEq

/-- The chapter-analysis part of the classification signal (design.md
line 631). -/
structure ChapterAnalysis where
  shouldCreateChapter : Bool
  suggestedEndpoint : EndpointSelection
deriving Repr, DecidableEq

/-- The classification event consumed by the memory module. -/
structure ClassificationEvent where
  chapterAnalysis : ChapterAnalysis
deriving Repr, DecidableEq

/-- Extracted chapter metadata (design.md lines 304-310). -/
structure ChapterMetadata where
  keywords : List String
  characters : List String
  locations : List String
  plotThreads : List String
  emotionalTone : String
deriving Repr, DecidableEq

/-- The state read and written by the chapter-creation path: the transcript
and the committed chapters. -/
structure MemoryState where
  transcript : List StoryMessage
  chapters : List Chapter
deriving Repr, DecidableEq

/-- Ambient helper of the design.md pseudocode: the end message id of the
last committed chapter, if any. -/
def getLastChapterEnd (s : MemoryState) : Option Nat :=
  s.chapters.getLast?.map (fun ch => ch.endMessageId)

/-- Ambient helper of the design.md pseudocode: the transcript messages after
the last committed chapter end, up to and including the given endpoint id. -/
def getMessagesSinceLastChapter (s : MemoryState) (endMessageId : Nat) :
    List StoryMessage :=
  s.transcript.filter
    (fun m => decide ((getLastChapterEnd s).getD 0 < m.id) && decide (m.id ≤ endMessageId))

/-- Ambient helper of the design.md pseudocode: the retained chapter text. -/
def formatMessages (messages : List StoryMessage) : String :=
  String.intercalate "\n" (messages.map (fun m => m.text))

/-- design.md `MemoryModule.createChapter` (lines 1687-1713): build the
record — number is the current count plus one, start is the last chapter end
(or the first member message when there is none) — then save it
unconditionally.  The summarization and metadata-extraction model calls are
passed as functions; the generated id is derived from the new number. -/
def createChapter (summarize : List StoryMessage → String)
    (extractMetadata : List StoryMessage → String → ChapterMetadata)
    (now : Nat) (s : MemoryState) (endpoint : EndpointSelection) : MemoryState :=
  let messages := getMessagesSinceLastChapter s endpoint.endMessageId
  let summary := summarize messages
  let metadata := extractMetadata messages summary
  let chapter : Chapter :=
    { id := "ch" ++ toString (s.chapters.length + 1)
    , number := s.chapters.length + 1
    , startMessageId := (getLastChapterEnd s).getD ((messages.headD ⟨0, ""⟩).id)
    , endMessageId := endpoint.endMessageId
    , messageCount := messages.length
    , summary := summary
    , fullContent := formatMessages messages
    , createdAt := now
    , keywords := metadata.keywords
    , characters := metadata.characters
    , locations := metadata.locations
    , plotThreads := metadata.plotThreads
    , emotionalTone := metadata.emotionalTone }
  { s with chapters := s.chapters ++ [chapter] }

/-- design.md `MemoryModule.handleClassificationComplete` (lines 1680-1685):
return unchanged unless the signal asks for a chapter, otherwise run the full
`createChapter` pipeline on the suggested endpoint. -/
def handleClassificationComplete (summarize : List StoryMessage → String)
    (extractMetadata : List StoryMessage → String → ChapterMetadata)
    (now : Nat) (s : MemoryState) (event : ClassificationEvent) : MemoryState :=
  if event.chapterAnalysis.shouldCreateChapter then
    createChapter summarize extractMetadata now s event.chapterAnalysis.suggestedEndpoint
  else s

/-- Constant summarization model call for the C7 instance. -/
def summarizeConst : List StoryMessage → String := fun _ => "summary"

/-- Constant metadata-extraction model call for the C7 instance. -/
def extractConst : List StoryMessage → String → ChapterMetadata :=
  fun _ _ => ⟨[], [], [], [], "calm"⟩

/-- A three-message story with no committed chapter yet. -/
def initialState : MemoryState :=
  ⟨[⟨1, "a"⟩, ⟨2, "b"⟩, ⟨3, "c"⟩], []⟩

/-- A boundary signal whose endpoint is message 2. -/
def boundaryEvent : ClassificationEvent := ⟨⟨true, ⟨2⟩⟩⟩

/-- A signal that does not request a chapter. -/
def nullEvent : ClassificationEvent := ⟨⟨false, ⟨2⟩⟩⟩

/-! ## The Chapter Index (spec section 4.2) -/

/-- A chapter as seen by the Chapter Index: its number and its turn range. -/
structure IndexedChapter where
  number : Nat
  startTurn : Nat
  endTurn : Nat
deriving Repr, DecidableEq

/-- The contract error of the Chapter Index mutator. -/
inductive IndexError where
  | OutOfSequence
deriving Repr, DecidableEq

/-- The committed-chapter collection. -/
structure ChapterIndex where
  chapters : List IndexedChapter
deriving Repr, DecidableEq

/-- The index of an empty story. -/
def ChapterIndex.empty : ChapterIndex := ⟨[]⟩

/-- The start turn required of the next chapter given a committed list and
the start required of a first chapter: one past the last committed end. -/
def expectedStartFrom (start : Nat) (chapters : List IndexedChapter) : Nat :=
  match chapters.getLast? with
  | none => start
  | some ch => ch.endTurn + 1

/-- The start turn required of the next committed chapter: turn 1 for a first
chapter, otherwise one past the prior chapter end. -/
def expectedStart (chapters : List IndexedChapter) : Nat :=
  expectedStartFrom 1 chapters

/-- Modelled from the spec: the Chapter Index mutator `append(chapter)`.  The
index implementation itself is not among the sources (design.md only shows
its caller `createChapter` saving through an undeclared `saveChapter`); per
spec section 4.2 the append enforces the contiguity invariant — the number
must be count plus one and the start turn must immediately follow the prior
chapter end — and fails with `OutOfSequence` otherwise, leaving the index
unchanged. -/
def ChapterIndex.append (idx : ChapterIndex) (ch : IndexedChapter) :
    Except IndexError ChapterIndex :=
  if ch.number = idx.chapters.length + 1 ∧ ch.startTurn = expectedStart idx.chapters
  then Except.ok ⟨idx.chapters ++ [ch]⟩
  else Except.error IndexError.OutOfSequence

/-- The contiguity check from an expected number and start turn: each chapter
carries the expected number and start, and the next expectation moves one
chapter and one turn range forward. -/
def contiguousFrom (number start : Nat) : List IndexedChapter → Bool
  | [] => true
  | ch :: rest =>
    (ch.number == number) && (ch.startTurn == start) &&
      contiguousFrom (number + 1) (ch.endTurn + 1) rest

/-- The contiguity invariant of the committed chapters: numbers are exactly
1..count, the first chapter starts at turn 1 and each following chapter
starts immediately after its predecessor ends. -/
def contiguous (chapters : List IndexedChapter) : Bool := contiguousFrom 1 1 chapters

/-- Run a sequence of append operations; a rejected append leaves the index
unchanged and the sequence continues. -/
def applyAppends (idx : ChapterIndex) : List IndexedChapter → ChapterIndex
  | [] => idx
  | ch :: rest =>
    match idx.append ch with
    | Except.ok idx2 => applyAppends idx2 rest
    | Except.error _ => applyAppends idx rest

/-! ## BaseAIService.callLLM
(src/src/lib/services/ai/core/BaseAIService.ts, lines 157-182) -/

/-- The error classes of a model call: a transient provider failure
(network, timeout, rate limit) or a malformed response rejected by the
response parser. -/
inductive ModelCallError where
  | transient
  | malformed
deriving Repr, DecidableEq

/-- `BaseAIService.callLLM`: one `provider.generateResponse` call inside a
try block, then the caller-supplied `parseResponse` on the response content;
any exception — thrown by the provider call or by `parseResponse` — is
caught and the caller-supplied `fallbackResult` is returned instead.  The
provider is embedded as the outcome each successive attempt would produce
(`providerAttempts k` is what the k-th attempt would yield) and the second
component of the result is the number of provider attempts the
implementation makes: the body has no retry loop, so it is always one. -/
def callLLM {T : Type} (providerAttempts : Nat → Except ModelCallError String)
    (parseResponse : String → Except ModelCallError T) (fallbackResult : T) :
    T × Nat :=
  match providerAttempts 0 with
  | Except.error _ => (fallbackResult, 1)
  | Except.ok content =>
    match parseResponse content with
    | Except.error _ => (fallbackResult, 1)
    | Except.ok value => (value, 1)

/-- A provider whose first attempt fails transiently and whose retries would
all succeed. -/
def flakyProvider : Nat → Except ModelCallError String :=
  fun attempt =>
    if attempt = 0 then Except.error ModelCallError.transient
    else Except.ok "response"

/-- A provider that always succeeds. -/
def okProvider : Nat → Except ModelCallError String :=
  fun _ => Except.ok "response"

/-- A strategy returning a fixed context and model-call count, for the C2
instance. -/
def constStrategy (r : RetrievedContext) (calls : Nat) :
    String → List Chapter → RetrievedContext × Nat :=
  fun _ _ => (r, calls)

end Aventuras

namespace Aventuras

/-! ## Claim theorems (first group) -/

/-- C3: with the default thresholds N = 50 and X = 10, the segmenter attempts
chapter creation for an unassigned-turn count c exactly when 60 <= c: it never
attempts creation while c < 60 and always attempts it once c >= 60. -/
theorem chapter_creation_threshold_trigger (c : Nat) :
    shouldAttemptChapterCreation c 50 10 = true ↔ 60 ≤ c := by
  simp [shouldAttemptChapterCreation]

/-- Closed instance of `chapter_creation_threshold_trigger` at the boundary
values 59 and 60. -/
theorem chapter_creation_threshold_trigger_witness :
    shouldAttemptChapterCreation 59 50 10 = false ∧
      shouldAttemptChapterCreation 60 50 10 = true := by
  constructor
  · have h := chapter_creation_threshold_trigger 59
    revert h
    decide
  · exact (chapter_creation_threshold_trigger 60).mpr (by decide)

/-- C9: mode `auto` selects the agentic strategy exactly when the committed
chapter count strictly exceeds `agenticThreshold` and the static strategy
otherwise; mode `agentic` always selects agentic and mode `static` always
selects static, regardless of chapter count. -/
theorem retrieval_mode_selection (config : RetrievalConfig) (count : Nat) :
    (config.mode = RetrievalMode.auto →
      (useAgenticRetrieval config count = true ↔ config.agenticThreshold < count)) ∧
    (config.mode = RetrievalMode.agentic → useAgenticRetrieval config count = true) ∧
    (config.mode = RetrievalMode.static → useAgenticRetrieval config count = false) := by
  refine ⟨?_, ?_, ?_⟩ <;> intro h <;> simp [useAgenticRetrieval, h]

/-- Closed instance of `retrieval_mode_selection`: with threshold 30, `auto`
is agentic at 31 chapters; `agentic` and `static` ignore the count. -/
theorem retrieval_mode_selection_witness :
    useAgenticRetrieval ⟨RetrievalMode.auto, 5, 3, 10, 30⟩ 31 = true ∧
      useAgenticRetrieval ⟨RetrievalMode.agentic, 5, 3, 10, 30⟩ 0 = true ∧
      useAgenticRetrieval ⟨RetrievalMode.static, 5, 3, 10, 30⟩ 100 = false := by
  refine ⟨?_, ?_, ?_⟩
  · exact ((retrieval_mode_selection ⟨RetrievalMode.auto, 5, 3, 10, 30⟩ 31).1 rfl).mpr
      (by decide)
  · exact (retrieval_mode_selection ⟨RetrievalMode.agentic, 5, 3, 10, 30⟩ 0).2.1 rfl
  · exact (retrieval_mode_selection ⟨RetrievalMode.static, 5, 3, 10, 30⟩ 100).2.2 rfl

/-- C2: with zero committed chapters `handleUserInput` returns a null context
and issues zero model calls; with at least one chapter it delegates to the
strategy selected by the configuration and returns exactly that result as the
context. -/
theorem handleUserInput_empty_short_circuit (config : RetrievalConfig)
    (chapters : List Chapter)
    (staticR agenticR : String → List Chapter → RetrievedContext × Nat)
    (input : String) :
    (chapters = [] →
      handleUserInput config chapters staticR agenticR input = (none, 0)) ∧
    (chapters ≠ [] →
      handleUserInput config chapters staticR agenticR input =
        (some (if useAgenticRetrieval config chapters.length then
                 (agenticR input chapters).1
               else (staticR input chapters).1),
         if useAgenticRetrieval config chapters.length then
           (agenticR input chapters).2
         else (staticR input chapters).2)) := by
  constructor
  · intro h
    subst h
    rfl
  · intro h
    have hlen : chapters.length ≠ 0 := by
      simpa [List.length_eq_zero] using h
    by_cases hmode : useAgenticRetrieval config chapters.length = true <;>
      simp [handleUserInput, hlen, hmode]

/-! ## Claim theorems: static retrieval failure propagation (C4) -/

/-- A rejected element rejects the whole `Promise.all`. -/
theorem promiseAll_error_of_mem {ε α : Type} (l : List (Except ε α))
    (h : ∃ x ∈ l, ∃ e, x = Except.error e) :
    ∃ e, promiseAll l = Except.error e := by
  induction l with
  | nil =>
    rcases h with ⟨x, hx, _⟩
    cases hx
  | cons x xs ih =>
    cases x with
    | error e => exact ⟨e, rfl⟩
    | ok a =>
      rcases h with ⟨y, hy, e, hey⟩
      rcases List.mem_cons.mp hy with h1 | h2
      · rw [h1] at hey
        simp at hey
      · rcases ih ⟨y, h2, e, hey⟩ with ⟨e2, he2⟩
        exact ⟨e2, by simp [promiseAll, he2, Except.map]⟩

/-- C4 counterexample: the decision step selects chapters 3, 7 and 9 and the
query on chapter 7 fails terminally; `staticRetrieval` then rejects as a
whole, so the combined context does not contain the two successful sibling
results — the whole turn has no retrieved context. -/
theorem static_partial_failure_counterexample :
    staticRetrieval staticFailureDecision staticFailureQuery "input" [] 0 =
      Except.error QueryFailure.queryFailed := by
  rfl

/-- C4 amended: in the static retrieval of design.md, a single terminally
failing chapter query rejects the combined `Promise.all`, so the retrieval
for that turn returns an error and no combined context at all; the sibling
query results are discarded rather than returned. -/
theorem static_retrieval_failure_propagates
    (decideRetrieval : String → List Chapter → RetrievalDecision)
    (queryChapter : Nat → String → Except QueryFailure QueryResult)
    (input : String) (chapters : List Chapter) (now : Nat)
    (h : ∃ q ∈ (decideRetrieval input chapters).queries,
      ∃ e, queryChapter q.chapter q.question = Except.error e) :
    ∃ e, staticRetrieval decideRetrieval queryChapter input chapters now =
      Except.error e := by
  rcases h with ⟨q, hq, e, he⟩
  have hmem : ∃ x ∈ (decideRetrieval input chapters).queries.map
      (fun q => queryChapter q.chapter q.question), ∃ e2, x = Except.error e2 :=
    ⟨queryChapter q.chapter q.question, List.mem_map_of_mem _ hq, e, he⟩
  rcases promiseAll_error_of_mem _ hmem with ⟨e2, he2⟩
  exact ⟨e2, by simp [staticRetrieval, he2, Except.map]⟩

/-- Closed instance of `static_retrieval_failure_propagates` at the concrete
three-chapter decision with the chapter 7 query failing. -/
theorem static_retrieval_failure_propagates_witness :
    ∃ e, staticRetrieval staticFailureDecision staticFailureQuery "input" [] 0 =
      Except.error e := by
  refine static_retrieval_failure_propagates _ _ _ _ _ ?_
  refine ⟨⟨7, "q7"⟩, ?_, QueryFailure.queryFailed, rfl⟩
  simp [staticFailureDecision]

/-! ## Claim theorems: agentic iteration cap (C5) -/

/-- A response without a `finish_retrieval` call never sets the completion
flag. -/
theorem processToolCalls_not_complete (runTool : String → String → QueryResult)
    (enc : QueryResult → String) (content : String) (calls : List AgentToolCall) :
    ∀ messages gathered,
      calls.any (fun c => c.name == "finish_retrieval") = false →
      (processToolCalls runTool enc content calls messages gathered).1 = false := by
  induction calls with
  | nil => intro messages gathered _; rfl
  | cons call rest ih =>
    intro messages gathered h
    simp only [List.any_cons, Bool.or_eq_false_iff, beq_eq_false_iff_ne] at h
    simp only [processToolCalls, if_neg h.1]
    exact ih _ _ (by simpa using h.2)

/-- A response containing a `finish_retrieval` call sets the completion
flag. -/
theorem processToolCalls_complete (runTool : String → String → QueryResult)
    (enc : QueryResult → String) (content : String) (calls : List AgentToolCall) :
    ∀ messages gathered,
      calls.any (fun c => c.name == "finish_retrieval") = true →
      (processToolCalls runTool enc content calls messages gathered).1 = true := by
  induction calls with
  | nil => intro messages gathered h; simp at h
  | cons call rest ih =>
    intro messages gathered h
    by_cases hname : call.name = "finish_retrieval"
    · simp [processToolCalls, hname]
    · simp only [List.any_cons, Bool.or_eq_true, beq_iff_eq] at h
      rcases h with h | h
      · exact absurd h hname
      · simp only [processToolCalls, if_neg hname]
        exact ih _ _ h

/-- The loop never performs more iterations than its fuel. -/
theorem agenticLoop_iterations_le (agent : List AgentMessage → AgentResponse)
    (runTool : String → String → QueryResult) (enc : QueryResult → String)
    (fuel : Nat) :
    ∀ messages gathered iterations,
      (agenticLoop agent runTool enc fuel messages gathered iterations).2 ≤
        iterations + fuel := by
  induction fuel with
  | zero => intro m g i; simp [agenticLoop]
  | succ f ih =>
    intro m g i
    simp only [agenticLoop]
    split
    · simp
    · have := ih (processToolCalls runTool enc (agent m).content (agent m).toolCalls m g).2.1
        (processToolCalls runTool enc (agent m).content (agent m).toolCalls m g).2.2 (i + 1)
      omega

/-- With an agent that never calls `finish_retrieval`, the loop consumes all
its fuel. -/
theorem agenticLoop_iterations_of_no_finish (agent : List AgentMessage → AgentResponse)
    (runTool : String → String → QueryResult) (enc : QueryResult → String)
    (hnf : ∀ messages, responseHasFinish (agent messages) = false) (fuel : Nat) :
    ∀ messages gathered iterations,
      (agenticLoop agent runTool enc fuel messages gathered iterations).2 =
        iterations + fuel := by
  induction fuel with
  | zero => intro m g i; simp [agenticLoop]
  | succ f ih =>
    intro m g i
    have hc : (processToolCalls runTool enc (agent m).content (agent m).toolCalls m g).1
        = false :=
      processToolCalls_not_complete runTool enc (agent m).content (agent m).toolCalls m g
        (hnf m)
    simp only [agenticLoop, hc]
    simp only [Bool.false_eq_true, if_false]
    rw [ih]
    omega

/-- C5: the agentic retrieval performs at most `maxIter` iterations; an agent
that never calls `finish_retrieval` runs for exactly `maxIter` iterations and
the loop still returns its gathered query results as an ordinary
`RetrievedContext` (the embedding has no error outcome); and a
`finish_retrieval` call in the very first response stops the loop after a
single iteration. -/
theorem agentic_iteration_cap (agent : List AgentMessage → AgentResponse)
    (runTool : String → String → QueryResult) (enc : QueryResult → String)
    (maxIter : Nat) (prompt : String) (now : Nat) :
    (agenticRetrieval agent runTool enc maxIter prompt now).2 ≤ maxIter ∧
    ((∀ messages, responseHasFinish (agent messages) = false) →
      (agenticRetrieval agent runTool enc maxIter prompt now).2 = maxIter ∧
      (agenticRetrieval agent runTool enc maxIter prompt now).1.queriedChapters =
        (agenticLoop agent runTool enc maxIter [⟨"user", prompt⟩] [] 0).1) ∧
    (1 ≤ maxIter → responseHasFinish (agent [⟨"user", prompt⟩]) = true →
      (agenticRetrieval agent runTool enc maxIter prompt now).2 = 1) := by
  refine ⟨?_, ?_, ?_⟩
  · have := agenticLoop_iterations_le agent runTool enc maxIter [⟨"user", prompt⟩] [] 0
    simpa [agenticRetrieval] using this
  · intro hnf
    have := agenticLoop_iterations_of_no_finish agent runTool enc hnf maxIter
      [⟨"user", prompt⟩] [] 0
    constructor
    · simpa [agenticRetrieval] using this
    · rfl
  · intro hpos hfin
    obtain ⟨f, rfl⟩ : ∃ f, maxIter = f + 1 := ⟨maxIter - 1, by omega⟩
    have hc : (processToolCalls runTool enc (agent [⟨"user", prompt⟩]).content
        (agent [⟨"user", prompt⟩]).toolCalls [⟨"user", prompt⟩] []).1 = true :=
      processToolCalls_complete runTool enc (agent [⟨"user", prompt⟩]).content
        (agent [⟨"user", prompt⟩]).toolCalls [⟨"user", prompt⟩] [] hfin
    simp [agenticRetrieval, agenticLoop, hc]

/-- Closed instance of `agentic_iteration_cap`: a never-finishing agent with
cap 3 runs exactly 3 iterations; an immediately finishing agent stops after
one. -/
theorem agentic_iteration_cap_witness :
    (agenticRetrieval neverFinishAgent constantTool (fun _ => "enc") 3 "p" 0).2 = 3 ∧
      (agenticRetrieval immediateFinishAgent constantTool (fun _ => "enc") 3 "p" 0).2 = 1 := by
  constructor
  · exact ((agentic_iteration_cap neverFinishAgent constantTool (fun _ => "enc")
      3 "p" 0).2.1 (fun _ => rfl)).1
  · exact (agentic_iteration_cap immediateFinishAgent constantTool (fun _ => "enc")
      3 "p" 0).2.2 (by decide) rfl

/-- The kept chapters are a suffix obtained by the minimal oldest-first drop
that fits the budget. -/
theorem dropOldestToFit_spec (budget : Nat) (chapters : List Chapter) :
    ∃ k, k ≤ chapters.length ∧
      dropOldestToFit budget chapters = chapters.drop k ∧
      totalContentLength (chapters.drop k) ≤ budget ∧
      (∀ j, j < k → budget < totalContentLength (chapters.drop j)) := by
  induction chapters with
  | nil =>
    refine ⟨0, by simp, by simp [dropOldestToFit], by simp [totalContentLength], ?_⟩
    intro j hj
    omega
  | cons ch rest ih =>
    by_cases hfit : totalContentLength (ch :: rest) ≤ budget
    · refine ⟨0, by simp, by simp [dropOldestToFit, hfit], by simpa using hfit, ?_⟩
      intro j hj
      omega
    · rcases ih with ⟨k, hk, hdrop, hle, hgt⟩
      refine ⟨k + 1, by simpa using Nat.succ_le_succ hk, ?_, ?_, ?_⟩
      · simpa [dropOldestToFit, hfit] using hdrop
      · simpa using hle
      · intro j hj
        cases j with
        | zero =>
          simpa using Nat.lt_of_not_le hfit
        | succ j2 =>
          have := hgt j2 (Nat.lt_of_succ_lt_succ hj)
          simpa using this

/-- Nothing is dropped exactly when the whole range fits the budget. -/
theorem dropOldestToFit_eq_self_iff (budget : Nat) (chapters : List Chapter) :
    dropOldestToFit budget chapters = chapters ↔
      totalContentLength chapters ≤ budget := by
  constructor
  · intro h
    cases chapters with
    | nil => simp [totalContentLength]
    | cons ch rest =>
      by_cases hfit : totalContentLength (ch :: rest) ≤ budget
      · exact hfit
      · exfalso
        rcases dropOldestToFit_spec budget rest with ⟨k, hk, hdrop, _, _⟩
        have hlen : (dropOldestToFit budget (ch :: rest)).length = rest.length + 1 := by
          rw [h]
          simp
        rw [show dropOldestToFit budget (ch :: rest) = dropOldestToFit budget rest from
          by simp [dropOldestToFit, hfit], hdrop] at hlen
        simp [List.length_drop] at hlen
        omega
  · intro h
    cases chapters with
    | nil => rfl
    | cons ch rest => simp [dropOldestToFit, h]

/-- C6: `queryRange` drops exactly a contiguous run of the oldest chapters —
the kept chapters are the minimal suffix of the range whose retained text
fits the budget — and notes truncation exactly when the full concatenation
would exceed the budget; on the range [2,3,4,5] under a budget fitting two
of the four equal-length chapter texts, chapters 4 and 5 are included,
chapters 2 and 3 are dropped, and truncation is noted. -/
theorem queryRange_truncates_oldest_first (budget : Nat) (chapters : List Chapter)
    (question : String) :
    (∃ k, k ≤ chapters.length ∧
      (queryRange budget chapters question).includedChapters =
        (chapters.drop k).map (fun ch => ch.number) ∧
      totalContentLength (chapters.drop k) ≤ budget ∧
      (∀ j, j < k → budget < totalContentLength (chapters.drop j))) ∧
    ((queryRange budget chapters question).truncationNoted = true ↔
      budget < totalContentLength chapters) ∧
    (queryRange 20 [sampleChapter 2, sampleChapter 3, sampleChapter 4, sampleChapter 5]
      question).includedChapters = [4, 5] ∧
    (queryRange 20 [sampleChapter 2, sampleChapter 3, sampleChapter 4, sampleChapter 5]
      question).truncationNoted = true := by
  refine ⟨?_, ?_, ?_, ?_⟩
  · rcases dropOldestToFit_spec budget chapters with ⟨k, hk, hdrop, hle, hgt⟩
    exact ⟨k, hk, by simp [queryRange, hdrop], hle, hgt⟩
  · have h := dropOldestToFit_eq_self_iff budget chapters
    simp only [queryRange, decide_eq_true_eq, ne_eq]
    constructor
    · intro hne
      by_contra hcon
      exact hne (h.mpr (by omega))
    · intro hlt hself
      have := h.mp hself
      omega
  · rfl
  · rfl

/-- Closed instance of `queryRange_truncates_oldest_first` on the four-chapter
range. -/
theorem queryRange_truncates_oldest_first_witness :
    (queryRange 20 [sampleChapter 2, sampleChapter 3, sampleChapter 4, sampleChapter 5]
      "q").includedChapters = [4, 5] ∧
    (queryRange 20 [sampleChapter 2, sampleChapter 3, sampleChapter 4, sampleChapter 5]
      "q").truncationNoted = true := by
  exact ⟨(queryRange_truncates_oldest_first 20 [] "q").2.2.1,
    (queryRange_truncates_oldest_first 20 [] "q").2.2.2⟩

/-- C7 counterexample: delivering the identical boundary signal (endpoint at
message 2) twice commits two chapters, not one — the handler has no
deduplication and `createChapter` saves unconditionally, so the second
delivery appends a second, degenerate chapter covering no new messages. -/
theorem duplicate_boundary_signal_counterexample :
    ((handleClassificationComplete summarizeConst extractConst 0
        (handleClassificationComplete summarizeConst extractConst 0 initialState
          boundaryEvent)
        boundaryEvent).chapters).length = 2 := by
  decide

/-- C7 amended: `handleClassificationComplete` is not idempotent — every
delivered signal with `shouldCreateChapter = true` runs the full create
pipeline and appends exactly one more chapter, including a duplicate signal
for an already committed boundary; only a signal with the flag false leaves
the state unchanged. -/
theorem classification_signal_appends_unconditionally
    (summarize : List StoryMessage → String)
    (extractMetadata : List StoryMessage → String → ChapterMetadata)
    (now : Nat) (s : MemoryState) (event : ClassificationEvent) :
    (handleClassificationComplete summarize extractMetadata now s event).chapters.length
      = (if event.chapterAnalysis.shouldCreateChapter then s.chapters.length + 1
         else s.chapters.length) ∧
    (event.chapterAnalysis.shouldCreateChapter = false →
      handleClassificationComplete summarize extractMetadata now s event = s) := by
  cases h : event.chapterAnalysis.shouldCreateChapter <;>
    simp [handleClassificationComplete, createChapter, h]

/-- Closed instance of `classification_signal_appends_unconditionally` on the
three-message story: a boundary signal appends one chapter and a negative
signal is a no-op. -/
theorem classification_signal_appends_witness :
    (handleClassificationComplete summarizeConst extractConst 0 initialState
        boundaryEvent).chapters.length = 1 ∧
      handleClassificationComplete summarizeConst extractConst 0 initialState nullEvent
        = initialState := by
  constructor
  · have h := (classification_signal_appends_unconditionally summarizeConst extractConst 0
      initialState boundaryEvent).1
    simpa using h
  · exact (classification_signal_appends_unconditionally summarizeConst extractConst 0
      initialState nullEvent).2 rfl

/-! ## Claim theorems: Chapter Index contiguity (C1) -/

/-- Moving the expected start across the head chapter. -/
theorem expectedStartFrom_cons (start : Nat) (c : IndexedChapter)
    (rest : List IndexedChapter) :
    expectedStartFrom start (c :: rest) = expectedStartFrom (c.endTurn + 1) rest := by
  cases rest <;> rfl

/-- Appending a chapter with the expected number and start preserves the
contiguity check. -/
theorem contiguousFrom_append_last (l : List IndexedChapter) :
    ∀ (number start : Nat) (ch : IndexedChapter),
      contiguousFrom number start l = true →
      ch.number = number + l.length →
      ch.startTurn = expectedStartFrom start l →
      contiguousFrom number start (l ++ [ch]) = true := by
  induction l with
  | nil =>
    intro number start ch _ h2 h3
    simp only [expectedStartFrom] at h3
    simp [contiguousFrom, h2, h3]
  | cons c rest ih =>
    intro number start ch h1 h2 h3
    simp only [contiguousFrom, Bool.and_eq_true, beq_iff_eq] at h1
    obtain ⟨⟨hn, hs⟩, hrest⟩ := h1
    simp only [List.cons_append, contiguousFrom, Bool.and_eq_true, beq_iff_eq]
    refine ⟨⟨hn, hs⟩, ?_⟩
    refine ih (number + 1) (c.endTurn + 1) ch hrest ?_ ?_
    · simp only [List.length_cons] at h2
      omega
    · rw [h3, expectedStartFrom_cons]

/-- An accepted append preserves the contiguity invariant. -/
theorem append_preserves_contiguous (idx : ChapterIndex) (ch : IndexedChapter)
    (idx2 : ChapterIndex) (h : contiguous idx.chapters = true)
    (happ : idx.append ch = Except.ok idx2) :
    contiguous idx2.chapters = true := by
  unfold ChapterIndex.append at happ
  split at happ
  · rename_i hcond
    cases happ
    exact contiguousFrom_append_last idx.chapters 1 1 ch h
      (by rw [hcond.1]; omega) hcond.2
  · cases happ

/-- Any run of append operations preserves the contiguity invariant. -/
theorem applyAppends_preserves_contiguous (ops : List IndexedChapter) :
    ∀ idx : ChapterIndex, contiguous idx.chapters = true →
      contiguous (applyAppends idx ops).chapters = true := by
  induction ops with
  | nil => intro idx h; exact h
  | cons ch rest ih =>
    intro idx h
    cases happ : idx.append ch with
    | ok idx2 =>
      simp only [applyAppends, happ]
      exact ih idx2 (append_preserves_contiguous idx ch idx2 h happ)
    | error e =>
      simp only [applyAppends, happ]
      exact ih idx h

/-- Under the contiguity check the chapter at position i carries number
`number + i`. -/
theorem contiguousFrom_get_number (l : List IndexedChapter) :
    ∀ (number start : Nat), contiguousFrom number start l = true →
      ∀ i (h : i < l.length), (l.get ⟨i, h⟩).number = number + i := by
  induction l with
  | nil =>
    intro number start _ i h
    exact absurd h (by simp)
  | cons c rest ih =>
    intro number start hc i h
    simp only [contiguousFrom, Bool.and_eq_true, beq_iff_eq] at hc
    obtain ⟨⟨hn, _⟩, hrest⟩ := hc
    cases i with
    | zero => simpa using hn
    | succ j =>
      have hj : j < rest.length := by
        simp only [List.length_cons] at h
        omega
      have h2 := ih (number + 1) (c.endTurn + 1) hrest j hj
      show (rest.get ⟨j, hj⟩).number = number + (j + 1)
      rw [h2]
      omega

/-- Under the contiguity check a nonempty list starts at the expected start
turn. -/
theorem contiguousFrom_get_zero_start (l : List IndexedChapter)
    (number start : Nat) (hc : contiguousFrom number start l = true) :
    ∀ h : 0 < l.length, (l.get ⟨0, h⟩).startTurn = start := by
  cases l with
  | nil => intro h; exact absurd h (by simp)
  | cons c rest =>
    intro h
    simp only [contiguousFrom, Bool.and_eq_true, beq_iff_eq] at hc
    exact hc.1.2

/-- Under the contiguity check each chapter end immediately precedes the next
chapter start. -/
theorem contiguousFrom_boundary (l : List IndexedChapter) :
    ∀ (number start : Nat), contiguousFrom number start l = true →
      ∀ i (h : i + 1 < l.length),
        (l.get ⟨i, Nat.lt_of_succ_lt h⟩).endTurn + 1 = (l.get ⟨i + 1, h⟩).startTurn := by
  induction l with
  | nil =>
    intro number start _ i h
    exact absurd h (by simp)
  | cons c rest ih =>
    intro number start hc i h
    simp only [contiguousFrom, Bool.and_eq_true, beq_iff_eq] at hc
    obtain ⟨⟨_, _⟩, hrest⟩ := hc
    cases i with
    | zero =>
      have h0 : 0 < rest.length := by
        simp only [List.length_cons] at h
        omega
      have hz := contiguousFrom_get_zero_start rest (number + 1) (c.endTurn + 1) hrest h0
      exact hz.symm
    | succ j =>
      have hj : j + 1 < rest.length := by
        simp only [List.length_cons] at h
        omega
      exact ih (number + 1) (c.endTurn + 1) hrest j hj

/-- C1: after any sequence of append operations starting from the empty
index, the committed chapters satisfy the contiguity invariant — the chapter
at position i has number i + 1 (numbers are exactly 1..count), the first
chapter starts at turn 1 and each chapter end immediately precedes the next
chapter start, with no gaps or overlaps; an append violating the contract
fails with `OutOfSequence`, and a failed append leaves the index unchanged
for the rest of the run. -/
theorem chapter_index_contiguity (ops : List IndexedChapter) :
    (∀ i, ∀ h : i < (applyAppends ChapterIndex.empty ops).chapters.length,
      ((applyAppends ChapterIndex.empty ops).chapters.get ⟨i, h⟩).number = i + 1) ∧
    (∀ h : 0 < (applyAppends ChapterIndex.empty ops).chapters.length,
      ((applyAppends ChapterIndex.empty ops).chapters.get ⟨0, h⟩).startTurn = 1) ∧
    (∀ i, ∀ h : i + 1 < (applyAppends ChapterIndex.empty ops).chapters.length,
      ((applyAppends ChapterIndex.empty ops).chapters.get
          ⟨i, Nat.lt_of_succ_lt h⟩).endTurn + 1 =
        ((applyAppends ChapterIndex.empty ops).chapters.get ⟨i + 1, h⟩).startTurn) ∧
    (∀ (idx : ChapterIndex) (ch : IndexedChapter),
      ¬ (ch.number = idx.chapters.length + 1 ∧ ch.startTurn = expectedStart idx.chapters) →
      ChapterIndex.append idx ch = Except.error IndexError.OutOfSequence) ∧
    (∀ (idx : ChapterIndex) (ch : IndexedChapter) (rest : List IndexedChapter),
      ChapterIndex.append idx ch = Except.error IndexError.OutOfSequence →
      applyAppends idx (ch :: rest) = applyAppends idx rest) := by
  have hc : contiguous (applyAppends ChapterIndex.empty ops).chapters = true :=
    applyAppends_preserves_contiguous ops ChapterIndex.empty rfl
  refine ⟨?_, ?_, ?_, ?_, ?_⟩
  · intro i h
    have := contiguousFrom_get_number _ 1 1 hc i h
    rw [this, Nat.add_comm]
  · intro h
    exact contiguousFrom_get_zero_start _ 1 1 hc h
  · intro i h
    exact contiguousFrom_boundary _ 1 1 hc i h
  · intro idx ch hnot
    unfold ChapterIndex.append
    rw [if_neg hnot]
  · intro idx ch rest happ
    simp only [applyAppends, happ]

/-- Closed instance of `chapter_index_contiguity` on two accepted appends and
one out-of-sequence rejection. -/
theorem chapter_index_contiguity_witness :
    ((applyAppends ChapterIndex.empty [⟨1, 1, 5⟩, ⟨2, 6, 9⟩]).chapters.get
        ⟨1, by decide⟩).number = 2 ∧
    ((applyAppends ChapterIndex.empty [⟨1, 1, 5⟩, ⟨2, 6, 9⟩]).chapters.get
        ⟨0, by decide⟩).startTurn = 1 ∧
    ChapterIndex.append ChapterIndex.empty ⟨5, 1, 3⟩ =
      Except.error IndexError.OutOfSequence := by
  refine ⟨?_, ?_, ?_⟩
  · exact (chapter_index_contiguity [⟨1, 1, 5⟩, ⟨2, 6, 9⟩]).1 1 (by decide)
  · exact (chapter_index_contiguity [⟨1, 1, 5⟩, ⟨2, 6, 9⟩]).2.1 (by decide)
  · exact (chapter_index_contiguity []).2.2.2.1 ChapterIndex.empty ⟨5, 1, 3⟩ (by decide)

/-! ## Claim theorems: callLLM (C8, C10) -/

/-- C8: at a transient first-attempt provider failure that any retry would
have recovered from, `callLLM` makes exactly one provider attempt and
resolves with the fallback — the implementation has no retry loop, no
exponential backoff and no escalation to an operation failure, contradicting
the five-attempt retry budget documented in design.md section 9.5. -/
theorem callLLM_no_retry_on_transient_failure :
    callLLM flakyProvider (fun s => Except.ok s) "fallback" = ("fallback", 1) ∧
      flakyProvider 1 = Except.ok "response" :=
  ⟨rfl, rfl⟩

/-- C10: `callLLM` is total at its interface — it always resolves, after
exactly one provider attempt: with the fallback when the provider call
throws, with the fallback when `parseResponse` throws, and with the parsed
value when both succeed. -/
theorem callLLM_total_with_fallback {T : Type}
    (providerAttempts : Nat → Except ModelCallError String)
    (parseResponse : String → Except ModelCallError T) (fallbackResult : T) :
    (∀ e, providerAttempts 0 = Except.error e →
      callLLM providerAttempts parseResponse fallbackResult = (fallbackResult, 1)) ∧
    (∀ content e, providerAttempts 0 = Except.ok content →
      parseResponse content = Except.error e →
      callLLM providerAttempts parseResponse fallbackResult = (fallbackResult, 1)) ∧
    (∀ content value, providerAttempts 0 = Except.ok content →
      parseResponse content = Except.ok value →
      callLLM providerAttempts parseResponse fallbackResult = (value, 1)) := by
  refine ⟨?_, ?_, ?_⟩
  · intro e he
    simp [callLLM, he]
  · intro content e hc hp
    simp [callLLM, hc, hp]
  · intro content value hc hp
    simp [callLLM, hc, hp]

/-- Closed instance of `callLLM_total_with_fallback` on all three outcome
shapes. -/
theorem callLLM_total_with_fallback_witness :
    callLLM flakyProvider (fun s => Except.ok s) "fb" = ("fb", 1) ∧
      callLLM okProvider
        (fun _ => (Except.error ModelCallError.malformed : Except ModelCallError String))
        "fb" = ("fb", 1) ∧
      callLLM okProvider (fun s => Except.ok s) "fb" = ("response", 1) := by
  refine ⟨?_, ?_, ?_⟩
  · exact (callLLM_total_with_fallback flakyProvider _ "fb").1
      ModelCallError.transient rfl
  · exact (callLLM_total_with_fallback okProvider _ "fb").2.1
      "response" ModelCallError.malformed rfl rfl
  · exact (callLLM_total_with_fallback okProvider _ "fb").2.2
      "response" "response" rfl rfl

/-- Closed instance of `handleUserInput_empty_short_circuit`: an empty story
short-circuits to a null context with zero model calls; a one-chapter story
in static mode returns the static strategy result. -/
theorem handleUserInput_empty_short_circuit_witness :
    handleUserInput ⟨RetrievalMode.auto, 5, 3, 10, 30⟩ []
        (constStrategy ⟨[], 7⟩ 4) (constStrategy ⟨[], 8⟩ 9) "hello" = (none, 0) ∧
      handleUserInput ⟨RetrievalMode.static, 5, 3, 10, 30⟩ [sampleChapter 1]
        (constStrategy ⟨[], 7⟩ 4) (constStrategy ⟨[], 8⟩ 9) "hello" =
        (some ⟨[], 7⟩, 4) := by
  constructor
  · exact (handleUserInput_empty_short_circuit ⟨RetrievalMode.auto, 5, 3, 10, 30⟩ []
      (constStrategy ⟨[], 7⟩ 4) (constStrategy ⟨[], 8⟩ 9) "hello").1 rfl
  · have h := (handleUserInput_empty_short_circuit ⟨RetrievalMode.static, 5, 3, 10, 30⟩
      [sampleChapter 1] (constStrategy ⟨[], 7⟩ 4) (constStrategy ⟨[], 8⟩ 9) "hello").2
      (by simp)
    simpa [constStrategy, useAgenticRetrieval] using h

end Aventuras
